import Mathlib

/-!
Verification of the danmaku-kit per-platform fetch-decode-normalize pipeline.

This file gives a shallow embedding of the three danmaku providers
(Bilibili, IQiYi, Bahamut): the segment planners, the per-segment failure
handling of each `fetchDanmaku`, the iQiYi regex-based XML field extraction,
and the `formatDanmakuMeta` normalizers, together with theorems about them.

Modelling conventions:
- JavaScript numbers are modelled as exact rationals (`Rat`); `toFixed(2)` is
  modelled as rounding to the nearest hundredth, ties towards positive
  infinity on the absolute value, matching the ECMAScript `toFixed`
  specification on exactly representable values.  Binary floating-point
  rounding artifacts are outside the model.
- `Number(string)` and `parseInt(string, 16)` are modelled on the plain
  decimal / hexadecimal numeral fragment (optional sign, digits, for `Number`
  an optional fractional part); `NaN` is `Option.none`.
- Rational arithmetic is written with executable wrappers (`rOfInt`, `rAdd`,
  `rMul`, `rDiv`, `rLt`, `rFloor`, `rCeil`) built on `mkRat`/`Rat.divInt`
  so that concrete runs reduce in the kernel; bridge lemmas identify them
  with the ordinary field operations on `ℚ`.
- Network effects are passed in as explicit oracles: a per-segment fetch is a
  function `Nat → Option β` where `none` is a fetch failure that the source
  catches inside the per-segment callback (returning `undefined` for
  Bilibili, `[]` for iQiYi, both of which the source then filters out).
  Errors thrown outside a `try`/`catch` are modelled with `Except`.
-/

deriving instance DecidableEq for Except

namespace DanmakuKit

/-- Model of JavaScript `String.prototype.trim()` on the whitespace
characters `Char.isWhitespace` covers. -/
def jsTrim (s : String) : String :=
  ⟨((s.data.dropWhile Char.isWhitespace).reverse.dropWhile Char.isWhitespace).reverse⟩

/-- Canonical comment shape shared by all providers (`types.d.ts`). -/
structure Danmaku where
  text : String
  meta : String
deriving DecidableEq

/-! Executable rational arithmetic wrappers and their bridge lemmas. -/

/-- Embed an integer as a rational, executably. -/
def rOfInt (n : Int) : Rat := mkRat n 1

/-- Executable addition on `Rat` (kernel-reducible, unlike `Rat.add`). -/
def rAdd (a b : Rat) : Rat := mkRat (a.num * b.den + b.num * a.den) (a.den * b.den)

/-- Executable multiplication on `Rat`. -/
def rMul (a b : Rat) : Rat := mkRat (a.num * b.num) (a.den * b.den)

/-- Executable division on `Rat`. -/
def rDiv (a b : Rat) : Rat := Rat.divInt (a.num * b.den) (a.den * b.num)

/-- Executable strict comparison on `Rat`. -/
def rLt (a b : Rat) : Bool := Rat.blt a b

/-- Executable floor on `Rat`. -/
def rFloor (a : Rat) : Int := Rat.floor a

/-- Executable ceiling on `Rat`. -/
def rCeil (a : Rat) : Int := -Rat.floor (Rat.neg a)

theorem rOfInt_eq (n : Int) : rOfInt n = (n : ℚ) := Rat.mkRat_one n

theorem rAdd_eq (a b : ℚ) : rAdd a b = a + b := (Rat.add_def' a b).symm

theorem rMul_eq (a b : ℚ) : rMul a b = a * b := by
  rw [rMul, Rat.mul_def, Rat.normalize_eq_mkRat]

theorem rDiv_eq (a b : ℚ) : rDiv a b = a / b := (Rat.div_def' a b).symm

theorem rLt_iff (a b : ℚ) : rLt a b = true ↔ a < b := Iff.rfl

theorem rFloor_eq (a : ℚ) : rFloor a = ⌊a⌋ := by
  rw [rFloor, Rat.floor_def', Rat.floor_def]

theorem rNeg_eq (a : ℚ) : Rat.neg a = -a := rfl

theorem rCeil_eq (a : ℚ) : rCeil a = ⌈a⌉ := by
  rw [rCeil, rNeg_eq, Rat.floor_def', ← Rat.floor_def, Int.floor_neg, neg_neg]

/-! Decimal rendering primitives (model of JavaScript number-to-string). -/

/-- The decimal digit character for a value below ten. -/
def digitChar (n : Nat) : Char := Char.ofNat (48 + n)

/-- Decimal digits of a natural number, most significant first; the fuel is
structural so that the kernel can evaluate it. -/
def natToCharsAux : Nat → Nat → List Char
  | 0, _ => []
  | fuel + 1, n =>
    if n < 10 then [digitChar n]
    else natToCharsAux fuel (n / 10) ++ [digitChar (n % 10)]

/-- Decimal rendering of a natural number. -/
def natToChars (n : Nat) : List Char := natToCharsAux (n + 1) n

/-- Decimal rendering of a natural number as a `String`. -/
def natToStr (n : Nat) : String := ⟨natToChars n⟩

/-- Decimal rendering of an integer, with a leading minus sign when
negative (model of JavaScript number-to-string on integral values). -/
def intToStr (i : Int) : String :=
  if i < 0 then "-" ++ natToStr i.natAbs else natToStr i.toNat

/-- Render a number of hundredths as a decimal numeral with exactly two
digits after the point. -/
def centsToFixed2 (n : Nat) : String :=
  natToStr (n / 100) ++ "." ++ ⟨[digitChar (n % 100 / 10), digitChar (n % 10)]⟩

/-- Hundredths of a non-negative rational, rounded half towards plus
infinity: the `n` minimizing the distance of `n / 100` to `q`, ties taking
the larger `n`, as the ECMAScript `toFixed` clause prescribes. -/
def ratCents (q : Rat) : Nat :=
  (rFloor (rAdd (rMul q (rOfInt 100)) (mkRat 1 2))).toNat

/-- Model of JavaScript `x.toFixed(2)` on an exact rational: negative inputs
render as the minus sign followed by the rendering of the negation. -/
def ratToFixed2 (q : Rat) : String :=
  if rLt q (rOfInt 0) then "-" ++ centsToFixed2 (ratCents (Rat.neg q))
  else centsToFixed2 (ratCents q)

/-- Model of `Number(x).toFixed(2)` where the `Number` conversion may have
produced `NaN` (`none`). -/
def jsToFixed2 : Option Rat → String
  | none => "NaN"
  | some q => ratToFixed2 q

/-! Model of JavaScript string-to-number conversions. -/

/-- Numeric value of one decimal digit list, most significant first. -/
def digitsToNat (l : List Char) : Nat :=
  l.foldl (fun a c => a * 10 + (c.toNat - 48)) 0

/-- Model of JavaScript `Number(s)` on the decimal-numeral fragment:
optional surrounding whitespace, optional sign, integer digits with an
optional fractional part; the empty (trimmed) string is `0`; anything else
is `NaN` (`none`).  Exponents, `Infinity` and hex literals are outside the
model. -/
def jsNumber (s : String) : Option Rat :=
  let l := ((s.data.dropWhile Char.isWhitespace).reverse.dropWhile
    Char.isWhitespace).reverse
  if l.isEmpty then some (rOfInt 0) else
  let sg : Int := match l with
    | '-' :: _ => -1
    | _ => 1
  let l1 := match l with
    | '-' :: r => r
    | '+' :: r => r
    | _ => l
  let ip := l1.takeWhile Char.isDigit
  let r1 := l1.drop ip.length
  match r1 with
  | [] =>
    if ip.isEmpty then none
    else some (rMul (rOfInt sg) (rOfInt (digitsToNat ip)))
  | '.' :: fr =>
    let fp := fr.takeWhile Char.isDigit
    if ¬ (fr.drop fp.length).isEmpty then none
    else if ip.isEmpty ∧ fp.isEmpty then none
    else some (rMul (rOfInt sg)
      (rAdd (rOfInt (digitsToNat ip)) (mkRat (digitsToNat fp) (10 ^ fp.length))))
  | _ => none

/-- Value of a hexadecimal digit character, `none` when the character is not
a hexadecimal digit. -/
def hexDigitVal (c : Char) : Option Nat :=
  if '0' ≤ c ∧ c ≤ '9' then some (c.toNat - 48)
  else if 'a' ≤ c ∧ c ≤ 'f' then some (c.toNat - 87)
  else if 'A' ≤ c ∧ c ≤ 'F' then some (c.toNat - 55)
  else none

/-- Model of JavaScript `Number.parseInt(s, 16)`: skip leading whitespace,
optional sign, optional `0x`/`0X`, then the longest run of hexadecimal
digits; no digit at all gives `NaN` (`none`); trailing garbage is ignored. -/
def parseIntHex (s : String) : Option Int :=
  let l := s.data.dropWhile Char.isWhitespace
  let sg : Int := match l with
    | '-' :: _ => -1
    | _ => 1
  let l1 := match l with
    | '-' :: r => r
    | '+' :: r => r
    | _ => l
  let l2 := match l1 with
    | '0' :: 'x' :: r => r
    | '0' :: 'X' :: r => r
    | _ => l1
  let ds := l2.takeWhile (fun c => (hexDigitVal c).isSome)
  if ds.isEmpty then none
  else some (sg * ds.foldl (fun a c => a * 16 + ((hexDigitVal c).getD 0 : Int)) 0)

/-- Render a possibly-`NaN` integer the way JavaScript string coercion of the
corresponding number would. -/
def jsIntToStr : Option Int → String
  | none => "NaN"
  | some i => intToStr i

/-! Comma joining and splitting of the canonical meta string. -/

/-- Model of JavaScript `Array.prototype.join(',')`. -/
def joinComma : List String → String
  | [] => ""
  | [s] => s
  | s :: rest => s ++ "," ++ joinComma rest

/-- Splitting a character list at every comma; model of
JavaScript `String.prototype.split(',')`. -/
def commaSplit : List Char → List (List Char)
  | [] => [[]]
  | c :: rest =>
    if c = ',' then [] :: commaSplit rest
    else
      match commaSplit rest with
      | [] => [[c]]
      | h :: t => (c :: h) :: t

/-- Recognizer for a non-negative decimal numeral with exactly two digits
after the point: one or more digits, a point, and exactly two digits. -/
def twoDecChars (l : List Char) : Bool :=
  match l.reverse with
  | d2 :: d1 :: p :: rest =>
    p == '.' && d1.isDigit && d2.isDigit && !rest.isEmpty && rest.all Char.isDigit
  | _ => false

/-! Tolerant tag scanning, the model of the iQiYi regex field extraction. -/

/-- Whether `p` occurs at the head of `s`. -/
def leadsWith : List Char → List Char → Bool
  | [], _ => true
  | _ :: _, [] => false
  | p :: ps, c :: cs => p == c && leadsWith ps cs

/-- Split at the first occurrence of `pat`: `some (before, after)` where
`before ++ pat ++ after` is the input, `none` when `pat` does not occur. -/
def splitFirst (pat : List Char) : List Char → Option (List Char × List Char)
  | [] => if pat.isEmpty then some ([], []) else none
  | c :: rest =>
    if leadsWith pat (c :: rest) then some ([], (c :: rest).drop pat.length)
    else
      match splitFirst pat rest with
      | some (pre, post) => some (c :: pre, post)
      | none => none

/-- Leftmost-then-shortest match of `openT`, newline-free content, `closeT`,
the semantics of the lazy JavaScript regex `<tag>(.*?)</tag>` without the
dot-all flag: at each candidate start the lazy group reaches the earliest
closing tag and cannot cross a newline; on failure the scan resumes one
character further. -/
def matchTagFrom (openT closeT : List Char) : List Char → Option (List Char)
  | [] => none
  | c :: rest =>
    if leadsWith openT (c :: rest) then
      match splitFirst closeT ((c :: rest).drop openT.length) with
      | some (content, _) =>
        if content.contains '\n' then matchTagFrom openT closeT rest
        else some content
      | none => none
    else matchTagFrom openT closeT rest

/-- Model of the iQiYi `getTag` helper: first match of
`<tag>(.*?)</tag>` in the bullet block, `undefined` when absent. -/
def getTag (bullet : String) (tag : String) : Option String :=
  (matchTagFrom ("<" ++ tag ++ ">").data ("</" ++ tag ++ ">").data bullet.data).map
    fun l => ⟨l⟩

/-- Repeated global matching of `<bulletInfo>([\s\S]*?)<\/bulletInfo>`: the
dot-all lazy group takes the content up to the earliest closing tag and the
scan resumes after the full match.  Fuel is the remaining string length,
which bounds the match count. -/
def extractBulletsAux (openT closeT : List Char) : Nat → List Char → List (List Char)
  | 0, _ => []
  | fuel + 1, s =>
    match splitFirst openT s with
    | none => []
    | some (_, rest) =>
      match splitFirst closeT rest with
      | none => []
      | some (content, rest2) => content :: extractBulletsAux openT closeT fuel rest2

/-- All `<bulletInfo>` block contents of an XML payload, in order. -/
def extractBullets (s : List Char) : List (List Char) :=
  extractBulletsAux "<bulletInfo>".data "</bulletInfo>".data s.length s

/-- Sequential effectful map over `Except`, stopping at the first error: the
model of a JavaScript `flatMap` whose callback can throw. -/
def exMapM {α β ε : Type} (f : α → Except ε β) : List α → Except ε (List β)
  | [] => .ok []
  | a :: l =>
    match f a with
    | .error e => .error e
    | .ok y =>
      match exMapM f l with
      | .error e => .error e
      | .ok ys => .ok (y :: ys)

/-- Model of the JavaScript `x || d` fallback on strings: the empty string is
falsy, and so is `undefined` (`none`). -/
def jsOrD (o : Option String) (d : String) : String :=
  match o with
  | none => d
  | some s => if s = "" then d else s

namespace IQiYi

/-- Raw iQiYi comment record (`IQiYiDanmaku`). -/
structure Bullet where
  content : String
  user : String
  time : String
  color : String
  position : String
deriving DecidableEq

/-- Model of `IQiYi.parseDanmakuXML`: per-bullet independent tag extraction
with the documented per-field fallbacks. -/
def parseDanmakuXML (xml : String) : List Bullet :=
  (extractBullets xml.data).map fun b =>
    { content := jsOrD ((getTag ⟨b⟩ "content").map jsTrim) ""
      user := jsOrD ((getTag ⟨b⟩ "name").map jsTrim) "iqiyi"
      time := jsOrD (getTag ⟨b⟩ "showTime") "0"
      color := jsOrD (getTag ⟨b⟩ "color") "16777215"
      position := jsOrD (getTag ⟨b⟩ "position") "0" }

/-- The iQiYi position table `{0 → 1, 1 → 5, 2 → 4}` with the `|| 1`
fallback; keys are the raw position strings. -/
def positions (p : String) : Nat :=
  if p = "0" then 1 else if p = "1" then 5 else if p = "2" then 4 else 1

/-- The iQiYi color normalization: `Number.parseInt(color, 16)` as joined
into the meta string. -/
def colorToStr (c : String) : String := jsIntToStr (parseIntHex c)

/-- Model of `IQiYi.formatDanmakuMeta`. -/
def formatDanmakuMeta (d : Bullet) : String :=
  joinComma
    [ jsToFixed2 (jsNumber d.time)
    , natToStr (positions d.position)
    , colorToStr d.color
    , d.user ]

/-- The canonical comment produced from one raw iQiYi record inside
`fetchDanmaku`. -/
def normalize (d : Bullet) : Danmaku :=
  { text := d.content, meta := formatDanmakuMeta d }

/-- The iQiYi segment plan: indices `1 .. ceil(durationSec / 300)` as built
by `Array.from({length: Math.ceil(duration / (60 * 5))}, (_, i) => i + 1)`;
a non-positive length yields the empty array. -/
def plan (durationSec : Int) : List Nat :=
  (List.range (rCeil (rDiv (rOfInt durationSec) (rOfInt (60 * 5)))).toNat).map (· + 1)

/-- Resolved iQiYi episode metadata (`ResponseEpisodeInfo.data`); numbers
are modelled as integers. -/
structure EpisodeInfo where
  tvId : Int
  durationSec : Int
deriving DecidableEq

/-- Model of `IQiYi.fetchEpisodeInfo`: a missing `data` record throws, else
`vid = String(tvId || episodeId)` and `duration = durationSec || 0` (the
latter is the identity on the integer model). -/
def fetchEpisodeInfo (resp : Option EpisodeInfo) (episodeId : String) :
    Except String (String × Int) :=
  match resp with
  | none => .error ("[iQIYI] Failed to fetch video info for tvid=" ++ episodeId)
  | some r => .ok (if r.tvId = 0 then episodeId else intToStr r.tvId, r.durationSec)

/-- Model of `IQiYi.fetchDanmaku`.  `fetchSeg i` is the outcome of the
guarded fetch-and-decompress of segment `i`: `some xml` on success, `none`
when the `try` block threw and the `catch` returned the empty array, which
`isEmpty` filters out together with empty decompressed strings. -/
def fetchDanmaku (resp : Option EpisodeInfo) (episodeId : String)
    (fetchSeg : Nat → Option String) : Except String (List Danmaku) := do
  let info ← fetchEpisodeInfo resp episodeId
  let xmls := (plan info.2).map fetchSeg
  return ((xmls.filterMap id).filter fun x => !x.isEmpty).flatMap
    fun xml => (parseDanmakuXML xml).map normalize

end IQiYi

namespace Bilibili

/-- Raw Bilibili comment record, the decoded protobuf `DanmakuElem` fields
the provider reads; numbers are modelled as integers. -/
structure DanmakuElem where
  id : Int
  progress : Int
  position : Int
  color : Int
  content : String
deriving DecidableEq

/-- The Bilibili position table `{4 → 4, 5 → 5}` with the `|| 1` fallback. -/
def positions (p : Int) : Nat :=
  if p = 4 then 4 else if p = 5 then 5 else 1

/-- The Bilibili color normalization: the decimal integer joined verbatim. -/
def colorToStr (c : Int) : String := intToStr c

/-- Model of `Bilibili.formatDanmakuMeta`. -/
def formatDanmakuMeta (e : DanmakuElem) : String :=
  joinComma
    [ ratToFixed2 (rDiv (rOfInt e.progress) (rOfInt 1000))
    , natToStr (positions e.position)
    , colorToStr e.color
    , intToStr e.id ]

/-- The canonical comment produced from one decoded record inside
`fetchDanmaku`. -/
def normalize (e : DanmakuElem) : Danmaku :=
  { text := e.content, meta := formatDanmakuMeta e }

/-- The Bilibili segment plan: indices
`1 .. Math.floor(durationMs / 1000 / 360) + 1` as built by `Array.from`;
a non-positive length yields the empty array. -/
def plan (durationMs : Int) : List Nat :=
  (List.range
    (rFloor (rDiv (rDiv (rOfInt durationMs) (rOfInt 1000)) (rOfInt 360)) + 1).toNat).map
    (· + 1)

/-- One episode entry of the Bilibili season response. -/
structure Episode where
  id : Int
  cid : Int
  duration : Int
deriving DecidableEq

/-- Model of `Bilibili.fetchEpisodeInfo`: find the episode whose `id`
matches, throw when it is absent or its `cid` or `duration` is falsy
(`0` on the integer model). -/
def fetchEpisodeInfo (episodes : Option (List Episode)) (episodeId : Int) :
    Except String (String × Int) :=
  match (episodes.getD []).find? (fun e => e.id == episodeId) with
  | none => .error ("[Bilibili] Failed to fetch series details for ep_id=" ++ intToStr episodeId)
  | some e =>
    if e.cid = 0 ∨ e.duration = 0 then
      .error ("[Bilibili] Failed to fetch series details for ep_id=" ++ intToStr episodeId)
    else .ok (intToStr e.cid, e.duration)

/-- The per-buffer step of `Bilibili.fetchDanmaku`: decode the protobuf
segment, keep records with truthy `content`, and normalize.  The decode runs
outside the per-segment `try`/`catch`, so its error propagates. -/
def decodeSegment {β ε : Type} (decode : β → Except ε (List DanmakuElem)) (b : β) :
    Except ε (List Danmaku) :=
  (decode b).map fun elems => (elems.filter fun e => !(e.content == "")).map normalize

/-- Model of `Bilibili.fetchDanmaku`.  `fetchSeg i` is the outcome of the
guarded fetch of segment `i`: `some bytes` on success, `none` when the
`try` block threw and the `catch` returned `undefined`, which the
`filter(buffer => !!buffer)` drops.  `decode` is the protobuf parse of one
fetched buffer, which runs outside any `try` and can fail the whole call. -/
def fetchDanmaku {β ε : Type} (episodes : Option (List Episode)) (episodeId : Int)
    (fetchSeg : Nat → Option β) (decode : β → Except ε (List DanmakuElem)) :
    Except (String ⊕ ε) (List Danmaku) := do
  let info ← (fetchEpisodeInfo episodes episodeId).mapError Sum.inl
  let segs ← (exMapM (decodeSegment decode)
    (((plan info.2).map fetchSeg).filterMap id)).mapError Sum.inr
  return segs.flatten

end Bilibili

namespace Bahamut

/-- Raw Bahamut comment record (`BahamutDanmaku`); numbers are modelled as
integers. -/
structure BahamutDanmaku where
  text : String
  color : String
  size : Int
  position : Int
  time : Int
  sn : Int
  userid : String
deriving DecidableEq

/-- The Bahamut position table `{1 → 5, 2 → 4}` with the `|| 1` fallback. -/
def positions (p : Int) : Nat :=
  if p = 1 then 5 else if p = 2 then 4 else 1

/-- The Bahamut color normalization:
`Number.parseInt(color.slice(1), 16)` as joined into the meta string. -/
def colorToStr (c : String) : String := jsIntToStr (parseIntHex (c.drop 1))

/-- Model of `Bahamut.formatDanmakuMeta`; `time` is in deciseconds. -/
def formatDanmakuMeta (d : BahamutDanmaku) : String :=
  joinComma
    [ ratToFixed2 (rDiv (rOfInt d.time) (rOfInt 10))
    , natToStr (positions d.position)
    , colorToStr d.color
    , d.userid ]

/-- The canonical comment produced from one raw record inside
`fetchDanmaku`. -/
def normalize (d : BahamutDanmaku) : Danmaku :=
  { text := d.text, meta := formatDanmakuMeta d }

/-- The danmaku endpoint response: `data?.danmu ?? []` is the record list. -/
structure ResponseDanmaku where
  danmu : Option (Option (List BahamutDanmaku))
deriving DecidableEq

/-- The record list a response carries: `response.data?.danmu ?? []`. -/
def danmuOf (resp : ResponseDanmaku) : List BahamutDanmaku :=
  (resp.danmu.bind id).getD []

/-- Model of `Bahamut.fetchDanmaku` given a decoded endpoint response: there
is no resolution stage and no throw path; an empty record list returns the
empty list. -/
def fetchDanmaku (resp : ResponseDanmaku) : List Danmaku :=
  let danmaku := danmuOf resp
  if danmaku.isEmpty then [] else danmaku.map normalize

end Bahamut

/-- The compressed-XML scenario payload of the specification: one comment
block with `content`, `position` and `showTime` tags and no `color` or
`name` tag. -/
def iqiyiScenarioXML : String :=
  "<bulletInfo><content>哈哈哈</content><position>2</position><showTime>12.5</showTime></bulletInfo>"

/-- A structurally malformed comment block: no `content` tag at all. -/
def iqiyiMalformedXML : String :=
  "<bulletInfo><showTime>3</showTime></bulletInfo>"

/-! Helper lemmas about the rendering primitives. -/

theorem digitChar_isDigit {n : Nat} (h : n < 10) : (digitChar n).isDigit = true := by
  interval_cases n <;> decide

theorem natToCharsAux_isDigit :
    ∀ (f n : Nat), ∀ c ∈ natToCharsAux f n, c.isDigit = true := by
  intro f
  induction f with
  | zero => intro n c hc; simp [natToCharsAux] at hc
  | succ f ih =>
    intro n c hc
    rw [natToCharsAux] at hc
    by_cases h : n < 10
    · rw [if_pos h] at hc
      rcases List.mem_singleton.mp hc with rfl
      exact digitChar_isDigit h
    · rw [if_neg h] at hc
      rcases List.mem_append.mp hc with h1 | h1
      · exact ih _ c h1
      · rcases List.mem_singleton.mp h1 with rfl
        exact digitChar_isDigit (Nat.mod_lt _ (by omega))

theorem natToChars_isDigit {n : Nat} : ∀ c ∈ natToChars n, c.isDigit = true :=
  natToCharsAux_isDigit (n + 1) n

theorem natToCharsAux_ne_nil (f n : Nat) : natToCharsAux (f + 1) n ≠ [] := by
  rw [natToCharsAux]
  by_cases h : n < 10
  · rw [if_pos h]; simp
  · rw [if_neg h]; simp

theorem natToChars_ne_nil (n : Nat) : natToChars n ≠ [] := natToCharsAux_ne_nil n n

theorem ne_comma_of_isDigit {c : Char} (h : c.isDigit = true) : c ≠ ',' := by
  intro hc; subst hc; simp at h

theorem not_comma_natToChars (n : Nat) : ',' ∉ natToChars n := by
  intro h
  exact ne_comma_of_isDigit (natToChars_isDigit _ h) rfl

theorem natToStr_data (n : Nat) : (natToStr n).data = natToChars n := rfl

theorem not_comma_natToStr (n : Nat) : ',' ∉ (natToStr n).data := not_comma_natToChars n

theorem intToStr_data (i : Int) :
    (intToStr i).data =
      if i < 0 then '-' :: natToChars i.natAbs else natToChars i.toNat := by
  rw [intToStr]
  by_cases h : i < 0
  · rw [if_pos h, if_pos h, String.data_append]; rfl
  · rw [if_neg h, if_neg h]; rfl

theorem not_comma_intToStr (i : Int) : ',' ∉ (intToStr i).data := by
  rw [intToStr_data]
  by_cases h : i < 0
  · rw [if_pos h]
    intro hc
    rcases List.mem_cons.mp hc with h1 | h1
    · exact absurd h1 (by decide)
    · exact not_comma_natToChars _ h1
  · rw [if_neg h]; exact not_comma_natToChars _

theorem centsToFixed2_data (n : Nat) :
    (centsToFixed2 n).data =
      natToChars (n / 100) ++ '.' :: [digitChar (n % 100 / 10), digitChar (n % 10)] := by
  rw [centsToFixed2, String.data_append, String.data_append, natToStr_data,
    List.append_assoc]
  rfl

theorem not_comma_centsToFixed2 (n : Nat) : ',' ∉ (centsToFixed2 n).data := by
  rw [centsToFixed2_data]
  intro hc
  rcases List.mem_append.mp hc with h1 | h1
  · exact not_comma_natToChars _ h1
  · rcases List.mem_cons.mp h1 with h2 | h2
    · exact absurd h2 (by decide)
    · rcases List.mem_cons.mp h2 with h3 | h3
      · exact ne_comma_of_isDigit (digitChar_isDigit (by omega)) h3.symm
      · exact ne_comma_of_isDigit (digitChar_isDigit (by omega))
          (List.mem_singleton.mp h3).symm

theorem not_comma_ratToFixed2 (q : Rat) : ',' ∉ (ratToFixed2 q).data := by
  rw [ratToFixed2]
  by_cases h : rLt q (rOfInt 0) = true
  · rw [if_pos h, String.data_append]
    intro hc
    rcases List.mem_append.mp hc with h1 | h1
    · exact absurd (List.mem_singleton.mp h1) (by decide)
    · exact not_comma_centsToFixed2 _ h1
  · rw [if_neg h]; exact not_comma_centsToFixed2 _

theorem not_comma_jsToFixed2 (o : Option Rat) : ',' ∉ (jsToFixed2 o).data := by
  cases o with
  | none => decide
  | some q => exact not_comma_ratToFixed2 q

theorem not_comma_jsIntToStr (o : Option Int) : ',' ∉ (jsIntToStr o).data := by
  cases o with
  | none => decide
  | some i => exact not_comma_intToStr i

/-! Helper lemmas about comma splitting. -/

theorem commaSplit_of_not_mem : ∀ l : List Char, ',' ∉ l → commaSplit l = [l] := by
  intro l
  induction l with
  | nil => intro _; rfl
  | cons c rest ih =>
    intro h
    have hc : ¬ c = ',' := fun hc => h (hc ▸ List.mem_cons_self c rest)
    rw [commaSplit, if_neg hc, ih (fun hm => h (List.mem_cons_of_mem c hm))]

theorem commaSplit_append :
    ∀ (l1 l2 : List Char), ',' ∉ l1 →
      commaSplit (l1 ++ ',' :: l2) = l1 :: commaSplit l2 := by
  intro l1
  induction l1 with
  | nil => intro l2 _; simp [commaSplit]
  | cons c rest ih =>
    intro l2 h
    have hc : ¬ c = ',' := fun hc => h (hc ▸ List.mem_cons_self c rest)
    rw [List.cons_append, commaSplit, if_neg hc,
      ih l2 (fun hm => h (List.mem_cons_of_mem c hm))]

theorem comma_data : ("," : String).data = [','] := rfl

theorem joinComma4_data (a b c d : String) :
    (joinComma [a, b, c, d]).data =
      a.data ++ ',' :: (b.data ++ ',' :: (c.data ++ ',' :: d.data)) := by
  show (a ++ "," ++ (b ++ "," ++ (c ++ "," ++ d))).data = _
  simp [String.data_append, comma_data]

theorem commaSplit_joinComma4 (a b c d : String)
    (ha : ',' ∉ a.data) (hb : ',' ∉ b.data) (hc : ',' ∉ c.data) (hd : ',' ∉ d.data) :
    commaSplit (joinComma [a, b, c, d]).data = [a.data, b.data, c.data, d.data] := by
  rw [joinComma4_data, commaSplit_append _ _ ha, commaSplit_append _ _ hb,
    commaSplit_append _ _ hc, commaSplit_of_not_mem _ hd]

/-! Helper lemmas about the two-decimal numeral format. -/

theorem twoDecChars_centsToFixed2 (n : Nat) :
    twoDecChars (centsToFixed2 n).data = true := by
  rw [centsToFixed2_data, twoDecChars]
  have hrev :
      (natToChars (n / 100) ++ '.' :: [digitChar (n % 100 / 10), digitChar (n % 10)]).reverse =
        digitChar (n % 10) :: digitChar (n % 100 / 10) :: '.' :: (natToChars (n / 100)).reverse := by
    simp
  rw [hrev]
  simp only [Bool.and_eq_true]
  refine ⟨⟨⟨⟨rfl, digitChar_isDigit (by omega)⟩, digitChar_isDigit (by omega)⟩, ?_⟩, ?_⟩
  · simpa using natToChars_ne_nil (n / 100)
  · rw [List.all_eq_true]
    intro c hcmem
    exact natToChars_isDigit _ (List.mem_reverse.mp hcmem)

theorem rLt_neg_false {q : Rat} (h : 0 ≤ q) : rLt q (rOfInt 0) = false := by
  have h0 : rOfInt 0 = (0 : ℚ) := by rw [rOfInt_eq]; norm_num
  rw [← Bool.not_eq_true]
  intro hlt
  rw [h0] at hlt
  exact absurd ((rLt_iff q 0).mp hlt) (not_lt.mpr h)

theorem ratToFixed2_nonneg {q : Rat} (h : 0 ≤ q) :
    ratToFixed2 q = centsToFixed2 (ratCents q) := by
  rw [ratToFixed2, rLt_neg_false h]
  simp

theorem twoDecChars_ratToFixed2 {q : Rat} (h : 0 ≤ q) :
    twoDecChars (ratToFixed2 q).data = true := by
  rw [ratToFixed2_nonneg h]
  exact twoDecChars_centsToFixed2 _

/-! Helper lemmas about the sequential effectful map. -/

theorem exMapM_ok_of_all {α β ε : Type} (f : α → Except ε β) :
    ∀ l : List α, (∀ a ∈ l, ∃ y, f a = .ok y) → ∃ ys, exMapM f l = .ok ys := by
  intro l
  induction l with
  | nil => intro _; exact ⟨[], rfl⟩
  | cons a l ih =>
    intro h
    obtain ⟨y, hy⟩ := h a (List.mem_cons_self a l)
    obtain ⟨ys, hys⟩ := ih fun x hx => h x (List.mem_cons_of_mem a hx)
    exact ⟨y :: ys, by rw [exMapM, hy, hys]⟩

theorem exMapM_mem {α β ε : Type} (f : α → Except ε β) :
    ∀ (l : List α) (ys : List β), exMapM f l = .ok ys →
      ∀ y ∈ ys, ∃ a ∈ l, f a = .ok y := by
  intro l
  induction l with
  | nil =>
    intro ys h y hy
    rw [exMapM] at h
    cases h
    simp at hy
  | cons a l ih =>
    intro ys h y hy
    rw [exMapM] at h
    cases hfa : f a with
    | error e => rw [hfa] at h; cases h
    | ok y0 =>
      rw [hfa] at h
      cases hrec : exMapM f l with
      | error e => rw [hrec] at h; cases h
      | ok ys0 =>
        rw [hrec] at h
        cases h
        rcases List.mem_cons.mp hy with rfl | hmem
        · exact ⟨a, List.mem_cons_self a l, hfa⟩
        · obtain ⟨b, hb, hfb⟩ := ih ys0 hrec y hmem
          exact ⟨b, List.mem_cons_of_mem a hb, hfb⟩

/-! Helper lemmas about the segment plans. -/

theorem planSeq_chain (n : Nat) :
    List.Chain' (fun a b => b = a + 1) ((List.range n).map (· + 1)) := by
  rw [List.chain'_iff_get]
  intro i h
  simp only [List.get_eq_getElem, List.getElem_map, List.getElem_range]

theorem planSeq_head {n : Nat} (h : 0 < n) :
    ((List.range n).map (· + 1)).head? = some 1 := by
  obtain ⟨m, rfl⟩ : ∃ m, n = m + 1 := ⟨n - 1, by omega⟩
  rw [List.range_succ_eq_map]
  rfl

theorem bilibili_plan_count (d : Int) :
    rFloor (rDiv (rDiv (rOfInt d) (rOfInt 1000)) (rOfInt 360)) =
      ⌊(d : ℚ) / 1000 / 360⌋ := by
  rw [rFloor_eq, rDiv_eq, rDiv_eq, rOfInt_eq, rOfInt_eq, rOfInt_eq]
  norm_num

theorem iqiyi_plan_count (d : Int) :
    rCeil (rDiv (rOfInt d) (rOfInt (60 * 5))) = ⌈(d : ℚ) / 300⌉ := by
  rw [rCeil_eq, rDiv_eq, rOfInt_eq, rOfInt_eq]
  norm_num

theorem bilibili_plan_eq (d : Int) :
    Bilibili.plan d = (List.range (⌊(d : ℚ) / 1000 / 360⌋ + 1).toNat).map (· + 1) := by
  rw [Bilibili.plan, bilibili_plan_count]

theorem iqiyi_plan_eq (d : Int) :
    IQiYi.plan d = (List.range ⌈(d : ℚ) / 300⌉.toNat).map (· + 1) := by
  rw [IQiYi.plan, iqiyi_plan_count]

/-! Reduction lemmas for `Except`. -/

theorem except_bind_ok {ε α β : Type} (a : α) (f : α → Except ε β) :
    (Except.ok a : Except ε α) >>= f = f a := rfl

theorem except_bind_error {ε α β : Type} (e : ε) (f : α → Except ε β) :
    (Except.error e : Except ε α) >>= f = .error e := rfl

theorem except_mapError_ok {ε ε' α : Type} (f : ε → ε') (a : α) :
    (Except.ok a : Except ε α).mapError f = .ok a := rfl

theorem except_mapError_error {ε ε' α : Type} (f : ε → ε') (e : ε) :
    (Except.error e : Except ε α).mapError f = .error (f e) := rfl

theorem except_map_ok {ε α β : Type} (f : α → β) (a : α) :
    (Except.ok a : Except ε α).map f = .ok (f a) := rfl

theorem except_map_error {ε α β : Type} (f : α → β) (e : ε) :
    (Except.error e : Except ε α).map f = .error e := rfl

/-- Every comment a successfully decoded Bilibili segment contributes has
non-empty text: the empty-content filter runs before normalization. -/
theorem decodeSegment_ok_text {β ε : Type}
    (decode : β → Except ε (List Bilibili.DanmakuElem)) (b : β) (ys : List Danmaku)
    (h : Bilibili.decodeSegment decode b = .ok ys) : ∀ dm ∈ ys, dm.text ≠ "" := by
  cases hd : decode b with
  | error e => rw [Bilibili.decodeSegment, hd, except_map_error] at h; cases h
  | ok elems =>
    rw [Bilibili.decodeSegment, hd, except_map_ok] at h
    cases h
    intro dm hdm
    rcases List.mem_map.mp hdm with ⟨e, he, rfl⟩
    have hp := (List.mem_filter.mp he).2
    rw [Bool.not_eq_true', beq_eq_false_iff_ne] at hp
    exact hp

/-! Claim theorems. -/

/-- C1, counterexample: the claimed plan-length formula
`max(1, ceil(duration / window))` fails on both providers.  iQiYi plans
`ceil(duration / 300)` segments with no clamp to one, so duration `0` gives
the empty plan, not `[1]`; Bilibili plans `floor(durationMs / 1000 / 360) + 1`
segments, so a duration of exactly `360` seconds (`360000` ms) gives
`[1, 2]` where the claimed formula gives `[1]`. -/
theorem c1_counterexample :
    IQiYi.plan 0 = [] ∧ IQiYi.plan 0 ≠ [1] ∧
    Bilibili.plan 360000 = [1, 2] ∧ Bilibili.plan 360000 ≠ [1] := by
  decide

/-- C1 (amended): for every non-negative duration, each provider's segment
plan is the 1-based, strictly ascending, contiguous sequence `[1 .. count]`;
for Bilibili (360-second window, duration in milliseconds) the count is
`floor(durationMs / 1000 / 360) + 1`, which is at least 1, so the plan is
never empty and starts at 1; for iQiYi (300-second window, duration in
seconds) the count is `ceil(durationSec / 300)` with no clamp, so the plan
is empty exactly when the duration is 0 and otherwise starts at 1. -/
theorem c1_segment_plan_amended :
    ∀ d : Int, 0 ≤ d →
      (Bilibili.plan d = (List.range (⌊(d : ℚ) / 1000 / 360⌋ + 1).toNat).map (· + 1) ∧
        Bilibili.plan d ≠ [] ∧
        (Bilibili.plan d).head? = some 1 ∧
        List.Chain' (fun a b => b = a + 1) (Bilibili.plan d) ∧
        (Bilibili.plan d).length = (⌊(d : ℚ) / 1000 / 360⌋ + 1).toNat) ∧
      (IQiYi.plan d = (List.range ⌈(d : ℚ) / 300⌉.toNat).map (· + 1) ∧
        List.Chain' (fun a b => b = a + 1) (IQiYi.plan d) ∧
        (IQiYi.plan d).length = ⌈(d : ℚ) / 300⌉.toNat ∧
        (0 < d → (IQiYi.plan d).head? = some 1) ∧
        (d = 0 → IQiYi.plan d = [])) := by
  intro d hd
  have hdq : (0 : ℚ) ≤ (d : ℚ) := by exact_mod_cast hd
  have hb := bilibili_plan_eq d
  have hi := iqiyi_plan_eq d
  have hfl : 0 ≤ ⌊(d : ℚ) / 1000 / 360⌋ :=
    Int.floor_nonneg.mpr (div_nonneg (div_nonneg hdq (by norm_num)) (by norm_num))
  have hlenb : (Bilibili.plan d).length = (⌊(d : ℚ) / 1000 / 360⌋ + 1).toNat := by
    rw [hb]; simp
  have hleni : (IQiYi.plan d).length = ⌈(d : ℚ) / 300⌉.toNat := by
    rw [hi]; simp
  refine ⟨⟨hb, ?_, ?_, ?_, hlenb⟩, hi, ?_, hleni, ?_, ?_⟩
  · exact List.length_pos.mp (by rw [hlenb]; omega)
  · rw [hb]; exact planSeq_head (by omega)
  · rw [hb]; exact planSeq_chain _
  · rw [hi]; exact planSeq_chain _
  · intro hpos
    have hcl : 0 < ⌈(d : ℚ) / 300⌉ :=
      Int.ceil_pos.mpr (div_pos (by exact_mod_cast hpos) (by norm_num))
    rw [hi]; exact planSeq_head (by omega)
  · rintro rfl
    rw [hi]; simp

/-- C1 witness: at concrete durations the amended statement applies:
the Bilibili plan for `720000` ms is non-empty and the iQiYi plan for
duration `0` is empty. -/
theorem c1_witness : Bilibili.plan 720000 ≠ [] ∧ IQiYi.plan 0 = [] :=
  ⟨(c1_segment_plan_amended 720000 (by decide)).1.2.1,
    (c1_segment_plan_amended 0 (by decide)).2.2.2.2.2 rfl⟩

/-- C2, counterexample: with episode resolution succeeding (`cid = 7`,
`duration = 100`), a protobuf decode error on the single fetched segment
makes the whole Bilibili `fetchDanmaku` call fail, because the decode runs
outside the per-segment `try`/`catch`; the claim says the call would still
return a list. -/
theorem c2_counterexample :
    Bilibili.fetchEpisodeInfo (some [⟨1, 7, 100⟩]) 1 = .ok ("7", 100) ∧
    Bilibili.fetchDanmaku (some [⟨1, 7, 100⟩]) 1 (fun _ => some 0)
        (fun _ => (Except.error () : Except Unit (List Bilibili.DanmakuElem))) =
      .error (.inr ()) := by
  decide

/-- C2 (amended): once episode resolution succeeds, a fetch error affecting
one segment degrades that segment to absent and never fails the call:
the iQiYi call always returns a list (its per-segment guard also covers
decompression), and the Bilibili call returns a list provided every
successfully fetched segment also decodes — a Bilibili protobuf decode
error, which runs outside the per-segment guard, fails the whole call. -/
theorem c2_failure_isolation_amended :
    (∀ (resp : Option IQiYi.EpisodeInfo) (episodeId : String)
        (fetchSeg : Nat → Option String) (info : String × Int),
        IQiYi.fetchEpisodeInfo resp episodeId = .ok info →
        ∃ l, IQiYi.fetchDanmaku resp episodeId fetchSeg = .ok l) ∧
    (∀ (β ε : Type) (episodes : Option (List Bilibili.Episode)) (episodeId : Int)
        (fetchSeg : Nat → Option β) (decode : β → Except ε (List Bilibili.DanmakuElem))
        (info : String × Int),
        Bilibili.fetchEpisodeInfo episodes episodeId = .ok info →
        (∀ (b : β) (i : Nat), fetchSeg i = some b → ∃ elems, decode b = .ok elems) →
        ∃ l, Bilibili.fetchDanmaku episodes episodeId fetchSeg decode = .ok l) := by
  constructor
  · intro resp episodeId fetchSeg info h
    rw [IQiYi.fetchDanmaku, h, except_bind_ok]
    exact ⟨_, rfl⟩
  · intro β ε episodes episodeId fetchSeg decode info hres hdec
    have hall : ∀ b ∈ ((Bilibili.plan info.2).map fetchSeg).filterMap id,
        ∃ ys, Bilibili.decodeSegment decode b = .ok ys := by
      intro b hb
      rcases List.mem_filterMap.mp hb with ⟨o, ho, hid⟩
      rcases List.mem_map.mp ho with ⟨i, _, hfsi⟩
      obtain ⟨elems, helems⟩ := hdec b i (by rw [hfsi]; exact hid)
      exact ⟨_, by rw [Bilibili.decodeSegment, helems, except_map_ok]⟩
    obtain ⟨ys, hys⟩ := exMapM_ok_of_all _ _ hall
    refine ⟨ys.flatten, ?_⟩
    rw [Bilibili.fetchDanmaku, hres, except_mapError_ok, except_bind_ok, hys,
      except_mapError_ok, except_bind_ok]
    rfl

/-- C2 witness: the amended statement applies at concrete calls in which
every segment fetch fails (iQiYi) or every fetched segment decodes
(Bilibili). -/
theorem c2_witness :
    (∃ l, IQiYi.fetchDanmaku (some ⟨55, 330⟩) "55" (fun _ => none) = .ok l) ∧
    (∃ l, Bilibili.fetchDanmaku (some [⟨1, 7, 100⟩]) 1 (fun _ => some 0)
        (fun _ => (Except.ok [] : Except Unit (List Bilibili.DanmakuElem))) = .ok l) :=
  ⟨c2_failure_isolation_amended.1 _ _ _ ("55", 330) (by decide),
    c2_failure_isolation_amended.2 Nat Unit _ _ _ _ ("7", 100) (by decide)
      (fun _ _ _ => ⟨[], rfl⟩)⟩

/-- C3: decoding the specified compressed-XML segment (one block with
content `哈哈哈`, position `2`, `showTime` `12.5`, no `color` and no `name`
tag) normalizes the position to 4 and the user to the platform literal
`iqiyi` as claimed, but the absent color does NOT become white `16777215`:
the decimal default string `'16777215'` is fed to `parseInt(·, 16)` and is
parsed as hexadecimal, yielding `376926741` in the meta string.  The
claimed meta `12.50,4,16777215,iqiyi` is therefore not produced. -/
theorem c3_iqiyi_scenario_eval :
    IQiYi.parseDanmakuXML iqiyiScenarioXML =
      [⟨"哈哈哈", "iqiyi", "12.5", "16777215", "2"⟩] ∧
    (IQiYi.parseDanmakuXML iqiyiScenarioXML).map IQiYi.normalize =
      [⟨"哈哈哈", "12.50,4,376926741,iqiyi"⟩] ∧
    parseIntHex "16777215" = some 376926741 ∧
    (IQiYi.parseDanmakuXML iqiyiScenarioXML).map IQiYi.normalize ≠
      [⟨"哈哈哈", "12.50,4,16777215,iqiyi"⟩] := by
  decide

/-- C4, counterexample: the iQiYi user field is free-form text extracted
from the `name` tag; a user string containing a comma (here `a,b`) makes
the produced meta string split into five comma-separated fields, not
four. -/
theorem c4_counterexample :
    IQiYi.formatDanmakuMeta ⟨"hi", "a,b", "0", "ff", "0"⟩ = "0.00,1,255,a,b" ∧
    (commaSplit (IQiYi.formatDanmakuMeta ⟨"hi", "a,b", "0", "ff", "0"⟩).data).length = 5 ∧
    (commaSplit (IQiYi.formatDanmakuMeta ⟨"hi", "a,b", "0", "ff", "0"⟩).data).length ≠ 4 := by
  decide

/-- C4 (amended): for every raw comment record whose user field contains no
comma (always true of the numeric Bilibili user id) and whose time value is
a non-negative number, the produced meta splits on commas into exactly the
four field strings, and the first (time) field is a non-negative decimal
numeral with exactly two digits after the point. -/
theorem c4_meta_shape_amended :
    (∀ d : IQiYi.Bullet, ',' ∉ d.user.data →
        ∀ q : Rat, jsNumber d.time = some q → 0 ≤ q →
        commaSplit (IQiYi.formatDanmakuMeta d).data =
          [(ratToFixed2 q).data, (natToStr (IQiYi.positions d.position)).data,
            (IQiYi.colorToStr d.color).data, d.user.data] ∧
        twoDecChars (ratToFixed2 q).data = true) ∧
    (∀ e : Bilibili.DanmakuElem, 0 ≤ e.progress →
        commaSplit (Bilibili.formatDanmakuMeta e).data =
          [(ratToFixed2 (rDiv (rOfInt e.progress) (rOfInt 1000))).data,
            (natToStr (Bilibili.positions e.position)).data,
            (Bilibili.colorToStr e.color).data, (intToStr e.id).data] ∧
        twoDecChars (ratToFixed2 (rDiv (rOfInt e.progress) (rOfInt 1000))).data = true) ∧
    (∀ d : Bahamut.BahamutDanmaku, ',' ∉ d.userid.data → 0 ≤ d.time →
        commaSplit (Bahamut.formatDanmakuMeta d).data =
          [(ratToFixed2 (rDiv (rOfInt d.time) (rOfInt 10))).data,
            (natToStr (Bahamut.positions d.position)).data,
            (Bahamut.colorToStr d.color).data, d.userid.data] ∧
        twoDecChars (ratToFixed2 (rDiv (rOfInt d.time) (rOfInt 10))).data = true) := by
  refine ⟨?_, ?_, ?_⟩
  · intro d hu q hq hq0
    have h1 : jsToFixed2 (jsNumber d.time) = ratToFixed2 q := by rw [hq]; rfl
    constructor
    · rw [IQiYi.formatDanmakuMeta, h1]
      exact commaSplit_joinComma4 _ _ _ _ (not_comma_ratToFixed2 q)
        (not_comma_natToStr _) (not_comma_jsIntToStr _) hu
    · exact twoDecChars_ratToFixed2 hq0
  · intro e hp
    have hv : rDiv (rOfInt e.progress) (rOfInt 1000) = (e.progress : ℚ) / 1000 := by
      rw [rDiv_eq, rOfInt_eq, rOfInt_eq]; norm_num
    have h0 : 0 ≤ rDiv (rOfInt e.progress) (rOfInt 1000) := by
      rw [hv]; exact div_nonneg (by exact_mod_cast hp) (by norm_num)
    constructor
    · rw [Bilibili.formatDanmakuMeta]
      exact commaSplit_joinComma4 _ _ _ _ (not_comma_ratToFixed2 _)
        (not_comma_natToStr _) (not_comma_intToStr _) (not_comma_intToStr _)
    · exact twoDecChars_ratToFixed2 h0
  · intro d hu ht
    have hv : rDiv (rOfInt d.time) (rOfInt 10) = (d.time : ℚ) / 10 := by
      rw [rDiv_eq, rOfInt_eq, rOfInt_eq]; norm_num
    have h0 : 0 ≤ rDiv (rOfInt d.time) (rOfInt 10) := by
      rw [hv]; exact div_nonneg (by exact_mod_cast ht) (by norm_num)
    constructor
    · rw [Bahamut.formatDanmakuMeta]
      exact commaSplit_joinComma4 _ _ _ _ (not_comma_ratToFixed2 _)
        (not_comma_natToStr _) (not_comma_jsIntToStr _) hu
    · exact twoDecChars_ratToFixed2 h0

/-- C4 witness: the amended statement applies to one concrete record of
each platform. -/
theorem c4_witness :
    (commaSplit (IQiYi.formatDanmakuMeta ⟨"x", "u", "0", "ff", "1"⟩).data =
        [(ratToFixed2 (rOfInt 0)).data, (natToStr (IQiYi.positions "1")).data,
          (IQiYi.colorToStr "ff").data, ("u" : String).data] ∧
      twoDecChars (ratToFixed2 (rOfInt 0)).data = true) ∧
    (commaSplit (Bilibili.formatDanmakuMeta ⟨7, 1500, 4, 255, "t"⟩).data =
        [(ratToFixed2 (rDiv (rOfInt 1500) (rOfInt 1000))).data,
          (natToStr (Bilibili.positions 4)).data,
          (Bilibili.colorToStr 255).data, (intToStr 7).data] ∧
      twoDecChars (ratToFixed2 (rDiv (rOfInt 1500) (rOfInt 1000))).data = true) ∧
    ((commaSplit (Bahamut.formatDanmakuMeta ⟨"t", "#ff0000", 0, 1, 30, 2, "usr"⟩).data =
        [(ratToFixed2 (rDiv (rOfInt 30) (rOfInt 10))).data,
          (natToStr (Bahamut.positions 1)).data,
          (Bahamut.colorToStr "#ff0000").data, ("usr" : String).data] ∧
      twoDecChars (ratToFixed2 (rDiv (rOfInt 30) (rOfInt 10))).data = true)) :=
  ⟨c4_meta_shape_amended.1 ⟨"x", "u", "0", "ff", "1"⟩ (by decide) (rOfInt 0)
      (by decide) (by decide),
    c4_meta_shape_amended.2.1 ⟨7, 1500, 4, 255, "t"⟩ (by decide),
    c4_meta_shape_amended.2.2 ⟨"t", "#ff0000", 0, 1, 30, 2, "usr"⟩ (by decide) (by decide)⟩

/-- C5: position normalization is total on every platform: every position
code maps to one of 1 (scroll), 4 (top), 5 (bottom), and every code outside
the platform's table maps to 1. -/
theorem c5_position_total :
    (∀ p : String, IQiYi.positions p = 1 ∨ IQiYi.positions p = 4 ∨ IQiYi.positions p = 5) ∧
    (∀ n : Int, Bilibili.positions n = 1 ∨ Bilibili.positions n = 4 ∨ Bilibili.positions n = 5) ∧
    (∀ n : Int, Bahamut.positions n = 1 ∨ Bahamut.positions n = 4 ∨ Bahamut.positions n = 5) ∧
    (∀ p : String, p ≠ "0" → p ≠ "1" → p ≠ "2" → IQiYi.positions p = 1) ∧
    (∀ n : Int, n ≠ 4 → n ≠ 5 → Bilibili.positions n = 1) ∧
    (∀ n : Int, n ≠ 1 → n ≠ 2 → Bahamut.positions n = 1) := by
  refine ⟨fun p => ?_, fun n => ?_, fun n => ?_, fun p h0 h1 h2 => ?_,
    fun n h4 h5 => ?_, fun n h1 h2 => ?_⟩ <;>
    simp only [IQiYi.positions, Bilibili.positions, Bahamut.positions] <;>
    split_ifs <;> simp_all

/-- C5 witness: codes outside every table normalize to 1. -/
theorem c5_witness :
    IQiYi.positions "9" = 1 ∧ Bilibili.positions 9 = 1 ∧ Bahamut.positions 9 = 1 :=
  ⟨c5_position_total.2.2.2.1 "9" (by decide) (by decide) (by decide),
    c5_position_total.2.2.2.2.1 9 (by decide) (by decide),
    c5_position_total.2.2.2.2.2 9 (by decide) (by decide)⟩

/-- C6: the Bilibili record with content `笑死`, progress 30500 ms, color
16711680, position 5 and id 42 normalizes to the canonical comment with
meta `30.50,5,16711680,42`: milliseconds divided by 1000 and rendered with
two decimals, position 5 kept, the decimal color passed through, and the
numeric id appended as the user field. -/
theorem c6_bilibili_scenario :
    Bilibili.normalize ⟨42, 30500, 5, 16711680, "笑死"⟩ =
      ⟨"笑死", "30.50,5,16711680,42"⟩ := by
  decide

/-- C7: the empty-text policy differs by platform as recorded: every comment
a successful Bilibili `fetchDanmaku` call returns has non-empty text
(decoded records with empty content are filtered before normalization),
while the iQiYi XML pipeline retains a structurally malformed comment block
as a comment whose text defaults to the empty string. -/
theorem c7_empty_text_policy :
    (∀ (β ε : Type) (episodes : Option (List Bilibili.Episode)) (episodeId : Int)
        (fetchSeg : Nat → Option β) (decode : β → Except ε (List Bilibili.DanmakuElem))
        (res : List Danmaku),
        Bilibili.fetchDanmaku episodes episodeId fetchSeg decode = .ok res →
        ∀ dm ∈ res, dm.text ≠ "") ∧
    (IQiYi.parseDanmakuXML iqiyiMalformedXML).map IQiYi.normalize =
      [⟨"", "3.00,1,376926741,iqiyi"⟩] := by
  constructor
  · intro β ε episodes episodeId fetchSeg decode res h dm hdm
    cases hres : Bilibili.fetchEpisodeInfo episodes episodeId with
    | error m =>
      rw [Bilibili.fetchDanmaku, hres, except_mapError_error, except_bind_error] at h
      cases h
    | ok info =>
      rw [Bilibili.fetchDanmaku, hres, except_mapError_ok, except_bind_ok] at h
      cases hmm : exMapM (Bilibili.decodeSegment decode)
          (((Bilibili.plan info.2).map fetchSeg).filterMap id) with
      | error e =>
        rw [hmm, except_mapError_error, except_bind_error] at h
        cases h
      | ok segs =>
        rw [hmm, except_mapError_ok, except_bind_ok] at h
        cases h
        rcases List.mem_flatten.mp hdm with ⟨ys, hys, hdm2⟩
        obtain ⟨b, _, hseg⟩ := exMapM_mem _ _ _ hmm ys hys
        exact decodeSegment_ok_text decode b ys hseg dm hdm2
  · decide

/-- C7 witness: the Bilibili part applies to a concrete call whose decoded
segment holds one record with text and one with empty content; the returned
comment has non-empty text. -/
theorem c7_witness :
    ({ text := "x", meta := "5.00,1,255,1" } : Danmaku).text ≠ "" :=
  c7_empty_text_policy.1 Nat Unit (some [⟨1, 7, 100⟩]) 1 (fun _ => some 0)
    (fun _ => .ok [⟨1, 5000, 1, 255, "x"⟩, ⟨2, 0, 0, 0, ""⟩])
    [{ text := "x", meta := "5.00,1,255,1" }] (by decide)
    { text := "x", meta := "5.00,1,255,1" } (by decide)

/-- C8: color normalization is total and encoding-independent: for every
pair of equivalent colors — a hex string parsing to the integer `n` on a
hex platform (iQiYi, or Bahamut after dropping the `#`) and the decimal
integer `n` itself on the decimal platform (Bilibili) — both normalize to
the same decimal integer in the meta string; in particular hex `FFFFFF` and
decimal `16777215` both normalize to `16777215`. -/
theorem c8_color_encoding :
    (∀ (s : String) (n : Int), parseIntHex s = some n →
        IQiYi.colorToStr s = Bilibili.colorToStr n) ∧
    (∀ (s : String) (n : Int), parseIntHex (s.drop 1) = some n →
        Bahamut.colorToStr s = Bilibili.colorToStr n) ∧
    IQiYi.colorToStr "FFFFFF" = "16777215" ∧
    Bilibili.colorToStr 16777215 = "16777215" ∧
    IQiYi.colorToStr "FFFFFF" = Bilibili.colorToStr 16777215 := by
  refine ⟨?_, ?_, by decide, by decide, by decide⟩
  · intro s n h
    rw [IQiYi.colorToStr, h]
    rfl
  · intro s n h
    rw [Bahamut.colorToStr, h]
    rfl

/-- C8 witness: the universal encoding-independence applies at the
specification's example pair, hex `FFFFFF` and decimal `16777215`. -/
theorem c8_witness :
    IQiYi.colorToStr "FFFFFF" = Bilibili.colorToStr 16777215 ∧
    Bahamut.colorToStr "#FFFFFF" = Bilibili.colorToStr 16777215 :=
  ⟨c8_color_encoding.1 "FFFFFF" 16777215 (by decide),
    c8_color_encoding.2.1 "#FFFFFF" 16777215 (by decide)⟩

/-- C9: the Bahamut `fetchDanmaku` has no resolution stage that can fail
for an unknown identifier: the result is a pure function of the response's
`danmu` list, and whenever that list is empty — including when the `data`
envelope is absent entirely — the call returns the empty list rather than
throwing, so an invalid episode id is indistinguishable from an episode
with zero comments. -/
theorem c9_bahamut_no_resolution :
    (∀ resp : Bahamut.ResponseDanmaku,
        Bahamut.fetchDanmaku resp = (Bahamut.danmuOf resp).map Bahamut.normalize) ∧
    (∀ resp : Bahamut.ResponseDanmaku,
        Bahamut.danmuOf resp = [] → Bahamut.fetchDanmaku resp = []) := by
  constructor
  · intro resp
    rw [Bahamut.fetchDanmaku]
    cases hl : Bahamut.danmuOf resp with
    | nil => simp
    | cons a l => simp
  · intro resp h
    simp [Bahamut.fetchDanmaku, h]

/-- C9 witness: a response with no `data` envelope returns the empty
list. -/
theorem c9_witness : Bahamut.fetchDanmaku ⟨none⟩ = [] :=
  c9_bahamut_no_resolution.2 ⟨none⟩ (by decide)

/-- C10: Bilibili treats a falsy `cid` or a falsy (zero) reported duration
of the matched episode as a resolution failure: `fetchEpisodeInfo` throws,
and `fetchDanmaku` therefore rejects with that resolution error instead of
planning any segment. -/
theorem c10_bilibili_falsy_resolution :
    ∀ (episodes : Option (List Bilibili.Episode)) (episodeId : Int) (e : Bilibili.Episode),
      (episodes.getD []).find? (fun x => x.id == episodeId) = some e →
      e.cid = 0 ∨ e.duration = 0 →
      Bilibili.fetchEpisodeInfo episodes episodeId =
        .error ("[Bilibili] Failed to fetch series details for ep_id=" ++ intToStr episodeId) ∧
      (∀ (β ε : Type) (fetchSeg : Nat → Option β)
          (decode : β → Except ε (List Bilibili.DanmakuElem)),
        Bilibili.fetchDanmaku episodes episodeId fetchSeg decode =
          .error (Sum.inl
            ("[Bilibili] Failed to fetch series details for ep_id=" ++ intToStr episodeId))) := by
  intro episodes episodeId e hf hor
  have h1 : Bilibili.fetchEpisodeInfo episodes episodeId =
      .error ("[Bilibili] Failed to fetch series details for ep_id=" ++ intToStr episodeId) := by
    rw [Bilibili.fetchEpisodeInfo, hf]
    exact if_pos hor
  refine ⟨h1, fun β ε fetchSeg decode => ?_⟩
  rw [Bilibili.fetchDanmaku, h1, except_mapError_error, except_bind_error]

/-- C10 witness: a zero-duration matched episode makes the concrete call
reject. -/
theorem c10_witness :
    Bilibili.fetchEpisodeInfo (some [⟨1, 7, 0⟩]) 1 =
      .error ("[Bilibili] Failed to fetch series details for ep_id=" ++ intToStr 1) ∧
    Bilibili.fetchDanmaku (some [⟨1, 7, 0⟩]) 1 (fun _ => (none : Option Unit))
        (fun _ => (Except.ok [] : Except Unit (List Bilibili.DanmakuElem))) =
      .error (Sum.inl ("[Bilibili] Failed to fetch series details for ep_id=" ++ intToStr 1)) :=
  have h := c10_bilibili_falsy_resolution (some [⟨1, 7, 0⟩]) 1 ⟨1, 7, 0⟩ (by decide)
    (Or.inr rfl)
  ⟨h.1, h.2 Unit Unit _ _⟩

end DanmakuKit
